import Mathlib

set_option maxRecDepth 100000

/-!
Shallow embedding of `src/defamed/src/params.rs` (the parameter permutation
engine of the repository), together with theorems settling the specification
claims about it.

Modelling conventions:

* Syntactic carriers from the `syn` crate (`syn::Pat`, `syn::Type`,
  `syn::Expr`, token streams) are modelled by their token text (`String`);
  the source only compares them textually (`to_token_stream().to_string()`)
  or carries them verbatim into output token streams.
* Rust panics (`panic!` / `unimplemented!`) and returned `syn::Error` values
  are both modelled in the `Except` monad, kept distinguishable by the two
  constructors of `RustError`.
* The external crate functions `permute::permute` and
  `permute::permutations_of` (all permutations of a sequence, with exactly
  one empty permutation for the empty sequence — the repository's own test
  `test_permute_defaults` relies on that count) are modelled by
  `List.permutations'` from Mathlib, which enumerates the same multiset of
  permutations (`List.mem_permutations'`) and is structurally recursive, so
  concrete runs evaluate inside the kernel.
* Machine integers (`usize` loop counters, the bit mask `1 << len`,
  `(num >> pos) & 1`) are modelled by `Nat`; the involved quantities are
  tiny, so no overflow reduction is needed.
-/

namespace Defamed

/-- Decidable equality for `Except`, by direct structural comparison, so that
concrete runs of the embedded functions can be checked with `decide`. -/
instance {ε α : Type} [DecidableEq ε] [DecidableEq α] : DecidableEq (Except ε α) := fun x y =>
  match x, y with
  | Except.ok a, Except.ok b =>
    match decEq a b with
    | isTrue h => isTrue (h ▸ rfl)
    | isFalse h => isFalse fun hc => h (Except.ok.inj hc)
  | Except.error e, Except.error f =>
    match decEq e f with
    | isTrue h => isTrue (h ▸ rfl)
    | isFalse h => isFalse fun hc => h (Except.error.inj hc)
  | Except.ok _, Except.error _ => isFalse fun hc => Except.noConfusion hc
  | Except.error _, Except.ok _ => isFalse fun hc => Except.noConfusion hc

/-- Rust enum `ParamAttr` (params.rs lines 43-51): the default descriptor of
one parameter — no attribute, `#[default]` (zero value via the `Default`
trait), or `#[default(expr)]` (a const expression). -/
inductive ParamAttr
  | none
  | default
  | value (e : String)
  deriving DecidableEq

/-- Rust struct `FunctionParam` (params.rs lines 19-26): binding pattern,
type, and default descriptor. -/
structure FunctionParam where
  pat : String
  ty : String
  default_value : ParamAttr
  deriving DecidableEq

/-- Rust enum `FnReceiver` (params.rs lines 29-41). -/
inductive FnReceiver
  | none
  | slf (ty : String) (mutable_ : Bool) (reference : Bool)
      (lifetime : Option String) (colon_token : Bool)
  deriving DecidableEq

/-- Rust struct `FunctionParams` (params.rs lines 12-16): receiver plus the
ordered parameter sequence. -/
structure FunctionParams where
  receiver : FnReceiver
  params : List FunctionParam
  deriving DecidableEq

/-- Rust enum `PermutedParam` (params.rs lines 54-63): one tagged slot of a
shape. -/
inductive PermutedParam
  | Positional (p : FunctionParam)
  | Named (p : FunctionParam)
  | DefaultUsed (p : FunctionParam)
  | DefaultUnused (p : FunctionParam)
  deriving DecidableEq

/-- Rust-side failure, as observed through the embedding: an aborting
`panic!` or `unimplemented!`, or a `syn::Error` value returned through
`Result`. -/
inductive RustError
  | fromPanic (msg : String)
  | fromSynError (msg : String)
  deriving DecidableEq

/-- Rust `PermutedParam::to_macro_pattern` (params.rs lines 97-117):
`Positional` renders `$pat_val: expr`, `Named` and `DefaultUsed` render
`pat = $pat_val: expr`, `DefaultUnused` renders nothing (`None`). -/
def to_macro_pattern : PermutedParam → Option String
  | PermutedParam.Positional inner =>
      Option.some ("$" ++ inner.pat ++ "_val: expr")
  | PermutedParam.Named inner | PermutedParam.DefaultUsed inner =>
      Option.some (inner.pat ++ " = $" ++ inner.pat ++ "_val: expr")
  | PermutedParam.DefaultUnused _ => Option.none

/-- Rust `PermutedParam::to_func_call_pattern` (params.rs lines 119-142):
`Positional`, `Named` and `DefaultUsed` render the captured expression
`$pat_val`; `DefaultUnused` inlines the default — `unimplemented!` (a panic)
when the descriptor is `None`, the `Default` trait call for `Default`, the
stored expression for `Value`. -/
def to_func_call_pattern : PermutedParam → Except RustError String
  | PermutedParam.Positional inner
  | PermutedParam.Named inner
  | PermutedParam.DefaultUsed inner =>
      Except.ok ("$" ++ inner.pat ++ "_val")
  | PermutedParam.DefaultUnused inner =>
      match inner.default_value with
      | ParamAttr.none =>
          Except.error (RustError.fromPanic "not implemented: invalid inner value")
      | ParamAttr.default => Except.ok "std::default::Default::default()"
      | ParamAttr.value v => Except.ok v

/-- Rust `impl PartialEq for FunctionParam` (params.rs lines 146-151):
string comparison of the `pat` token text only; the `ty` and
`default_value` comparisons are commented out in the source. -/
def FunctionParam.eq_impl (a b : FunctionParam) : Bool :=
  a.pat == b.pat

/-- Inner-value extraction performed twice inside
`impl PartialEq for PermutedParam` (params.rs lines 154-172). -/
def PermutedParam.inner_of : PermutedParam → FunctionParam
  | PermutedParam.Positional i => i
  | PermutedParam.Named i => i
  | PermutedParam.DefaultUsed i => i
  | PermutedParam.DefaultUnused i => i

/-- Rust `impl PartialEq for PermutedParam` (params.rs lines 154-172):
compares the inner `FunctionParam`s, ignoring the variant tags. -/
def PermutedParam.eq_impl (a b : PermutedParam) : Bool :=
  FunctionParam.eq_impl a.inner_of b.inner_of

/-- Scan loop of `FunctionParams::is_valid_sequence` (params.rs lines
296-306): advances through the parameters, returning `false` at the first
parameter whose default is not `None` and `true` when the list is exhausted.
The `iter.all` check after the `loop` in the source (lines 308-314) is
unreachable, because the loop only exits through its two `return`
statements; it is therefore not part of the embedding. -/
def is_valid_sequence_loop : List FunctionParam → Bool
  | [] => true
  | param :: rest =>
    match param.default_value with
    | ParamAttr.none => is_valid_sequence_loop rest
    | _ => false

/-- Rust `FunctionParams::is_valid_sequence` (params.rs lines 293-315). -/
def is_valid_sequence (s : FunctionParams) : Bool :=
  is_valid_sequence_loop s.params

/-- Modelled from the spec: the crate-root constant `crate::DEFAULT_ATTR` is
not part of the provided source file; the spec's recognized annotation is
`default` (`#[default]`, `#[default(expr)]`). -/
def DEFAULT_ATTR : String := "default"

/-- Model of `syn::Meta`: a bare path attribute `#[default]`, a list
attribute `#[default(tokens…)]` whose tokens are carried as expression
text, or a name-value attribute `#[default = …]`. -/
inductive SynMeta
  | path
  | list (tokens : List String)
  | nameValue
  deriving DecidableEq

/-- Model of `syn::Attribute`: its path text plus its meta. -/
structure SynAttribute where
  path : String
  meta : SynMeta
  deriving DecidableEq

/-- Model of `syn::PatType`: attributes, binding pattern and type. -/
structure SynPatType where
  attrs : List SynAttribute
  pat : String
  ty : String
  deriving DecidableEq

/-- Model of `syn::Receiver`: presence of `&`, presence of `mut`, the
optional lifetime carried by the reference, the optional colon token, and
the receiver type. -/
structure SynReceiver where
  reference : Bool
  mutability : Bool
  lifetime : Option String
  colon_token : Bool
  ty : String
  deriving DecidableEq

/-- Model of `syn::FnArg`: a receiver or a typed argument. -/
inductive FnArg
  | receiver (r : SynReceiver)
  | typed (t : SynPatType)
  deriving DecidableEq

/-- Attribute scan loop of `FunctionParam::from_pat_type` (params.rs lines
482-515): the first attribute whose path is `DEFAULT_ATTR` decides the
default descriptor (`break` afterwards); other attributes are skipped.  The
`syn::parse2::<syn::Expr>` step on the first token of a metalist is
modelled as succeeding, the token already being carried as expression
text. -/
def find_default_attr : List SynAttribute → Except RustError ParamAttr
  | [] => Except.ok ParamAttr.none
  | attr :: rest =>
    if attr.path == DEFAULT_ATTR then
      match attr.meta with
      | SynMeta.path => Except.ok ParamAttr.default
      | SynMeta.list tokens =>
        match tokens with
        | [] => Except.error
            (RustError.fromSynError "expected at least 1 item in metalist")
        | first_item :: _ => Except.ok (ParamAttr.value first_item)
      | SynMeta.nameValue => Except.error (RustError.fromSynError
          ("name-values are not supported. Use #[" ++ DEFAULT_ATTR ++ "] or #[" ++
            DEFAULT_ATTR ++ "(CONST_VALUE)] instead."))
    else find_default_attr rest

/-- Rust `FunctionParam::from_pat_type` (params.rs lines 476-522). -/
def from_pat_type (punct : SynPatType) : Except RustError FunctionParam := do
  let default_value ← find_default_attr punct.attrs
  Except.ok { pat := punct.pat, ty := punct.ty, default_value := default_value }

/-- Argument loop of `FunctionParams::from_punctuated` (params.rs lines
184-235): a second receiver panics before anything else is computed; a
first receiver is decoded through the four-way match on
`(reference, mutability)`; typed arguments go through `from_pat_type` and
are pushed in order. -/
def from_punctuated_loop (s : FunctionParams) (has_receiver : Bool) :
    List FnArg → Except RustError FunctionParams
  | [] => Except.ok s
  | FnArg.receiver recv :: rest =>
    if has_receiver then
      Except.error (RustError.fromPanic "Function cannot accept multiple receivers")
    else
      let receiver := match recv.reference, recv.mutability with
        | false, false =>
            FnReceiver.slf recv.ty false false recv.lifetime recv.colon_token
        | false, true =>
            FnReceiver.slf recv.ty true false recv.lifetime recv.colon_token
        | true, false =>
            FnReceiver.slf recv.ty false true recv.lifetime recv.colon_token
        | true, true =>
            FnReceiver.slf recv.ty true true recv.lifetime recv.colon_token
      from_punctuated_loop { s with receiver := receiver } true rest
  | FnArg.typed t :: rest => do
    let param ← from_pat_type t
    from_punctuated_loop { s with params := s.params ++ [param] } has_receiver rest

/-- Rust `FunctionParams::from_punctuated` (params.rs lines 175-238). -/
def from_punctuated (punctuated : List FnArg) : Except RustError FunctionParams :=
  from_punctuated_loop { receiver := FnReceiver.none, params := [] } false punctuated

/-- Sequencing of a fallible closure over a list, modelling a Rust iterator
`map` whose closure may panic (or return an error): the first failure
aborts the whole computation. -/
def map_fallible {α β : Type} (f : α → Except RustError β) :
    List α → Except RustError (List β)
  | [] => Except.ok []
  | a :: rest => do
    let b ← f a
    let bs ← map_fallible f rest
    Except.ok (b :: bs)

/-- Rust `FunctionParams::permute_named` (params.rs lines 384-405): panics
unless every item lacks a default, then returns all permutations of the
slice, each item tagged `Named`. -/
def permute_named (named : List FunctionParam) :
    Except RustError (List (List PermutedParam)) :=
  if !(named.all fun n => match n.default_value with
      | ParamAttr.none => true
      | _ => false) then
    Except.error (RustError.fromPanic "All items in slice must not have default values")
  else
    Except.ok (named.permutations'.map fun single_perm =>
      single_perm.map fun item => PermutedParam.Named item)

/-- Rust `FunctionParams::split_defaults` (params.rs lines 463-471):
partitions slots into `DefaultUsed` and `DefaultUnused`; any other variant
makes the partition closure panic. -/
def split_defaults (defaults : List PermutedParam) :
    Except RustError (List PermutedParam × List PermutedParam) :=
  if defaults.all fun d => match d with
      | PermutedParam.DefaultUsed _ => true
      | PermutedParam.DefaultUnused _ => true
      | _ => false then
    Except.ok (defaults.partition fun d => match d with
      | PermutedParam.DefaultUsed _ => true
      | _ => false)
  else Except.error (RustError.fromPanic "unexpected variant")

/-- Rust `FunctionParams::permute_default` (params.rs lines 411-460): panics
unless every item has a default; builds, for each bit mask
`num < 2 ^ defaults.len()`, the base sequence tagging positions with
`(num >> pos) & 1 != 0` as `DefaultUsed` and the rest `DefaultUnused`; for each base sequence permutes
the used slots and appends the unused slots in order; finally drops the
sequences of length zero. -/
def permute_default (defaults : List FunctionParam) :
    Except RustError (List (List PermutedParam)) := do
  if !(defaults.all fun n => match n.default_value with
      | ParamAttr.none => false
      | _ => true) then
    Except.error (RustError.fromPanic "All items in slice must have default values")
  else
    let base_permute := (List.range (2 ^ defaults.length)).map fun num =>
      defaults.enum.map fun (pos, item) =>
        if (num >>> pos) &&& 1 != 0 then PermutedParam.DefaultUsed item
        else PermutedParam.DefaultUnused item
    let parts ← map_fallible (fun seq => do
        let pr ← split_defaults seq
        Except.ok (pr.1.permutations'.map fun item => item ++ pr.2)) base_permute
    Except.ok ((parts.flatten).filter fun item => item.length != 0)

/-- The `take_while` computing `required_params` inside
`FunctionParams::permute_params` (params.rs lines 325-333), factored out so
that theorems can name its value. -/
def required_params_of (s : FunctionParams) : List FunctionParam :=
  s.params.takeWhile fun p => match p.default_value with
    | ParamAttr.none => true
    | _ => false

/-- The `skip` computing `default_params` inside
`FunctionParams::permute_params` (params.rs lines 335-340), factored out so
that theorems can name its value. -/
def default_params_of (s : FunctionParams) : List FunctionParam :=
  s.params.drop (required_params_of s).length

/-- The `named_permute` computation inside `FunctionParams::permute_params`
(params.rs lines 342-361), factored out so that theorems can name its
value: for each split index `idx ∈ 0..=len`, the first `idx` required
parameters become `Positional` (in declaration order) and every permutation
of the remaining ones (via `permute_named`) is appended. -/
def named_permute_of (required_params : List FunctionParam) :
    Except RustError (List (List PermutedParam)) := do
  let parts ← map_fallible (fun idx => do
      let positional := (required_params.take idx).map fun p =>
        PermutedParam.Positional p
      let permute_slice ← permute_named (required_params.drop idx)
      Except.ok (permute_slice.map fun named_seq => positional ++ named_seq))
    (List.range (required_params.length + 1))
  Except.ok parts.flatten

/-- Rust `FunctionParams::permute_params` (params.rs lines 324-380): split
into required prefix and default tail, build the required-tail shapes and
the default-tail shapes, then combine them through the four-way match on
the two lengths. -/
def permute_params (s : FunctionParams) :
    Except RustError (List (List PermutedParam)) := do
  let required_params := required_params_of s
  let default_params := default_params_of s
  let named_permute ← named_permute_of required_params
  let default_permute ← permute_default default_params
  Except.ok (match named_permute.length, default_permute.length with
    | 0, 0 => []
    | 0, _ => default_permute
    | _, 0 => named_permute
    | _, _ => (named_permute.map fun np =>
        default_permute.map fun dp => np ++ dp).flatten)

/-- Modelled from the spec's ordering invariant, for use in hypotheses and
as the reference point of claim C1: every parameter with default `None`
precedes every defaulted parameter, i.e. after dropping the leading run of
`None`-default parameters no `None`-default parameter remains. -/
def spec_defaults_at_end (s : FunctionParams) : Bool :=
  (s.params.dropWhile fun p => match p.default_value with
    | ParamAttr.none => true
    | _ => false).all fun p => match p.default_value with
      | ParamAttr.none => false
      | _ => true


/-- Proof-layer predicate: the parameter is required (its default descriptor
is `None`), as tested by the closures in `permute_params` and
`permute_named`. -/
def is_required_param (p : FunctionParam) : Bool :=
  match p.default_value with
  | ParamAttr.none => true
  | _ => false

/-- Proof-layer predicate: the parameter carries a default, as tested by the
closure in `permute_default`. -/
def has_default_param (p : FunctionParam) : Bool :=
  match p.default_value with
  | ParamAttr.none => false
  | _ => true

/-- Proof-layer predicate: the slot is a `DefaultUsed` slot, as tested by
the partition closure in `split_defaults`. -/
def is_used_slot : PermutedParam → Bool
  | PermutedParam.DefaultUsed _ => true
  | _ => false

/-- Proof-layer predicate: the slot is one of the two default-tail tags. -/
def is_default_slot : PermutedParam → Bool
  | PermutedParam.DefaultUsed _ => true
  | PermutedParam.DefaultUnused _ => true
  | _ => false

/-- Proof-layer predicate: the slot is a `Positional` slot. -/
def is_positional_slot : PermutedParam → Bool
  | PermutedParam.Positional _ => true
  | _ => false

/-- Proof-layer predicate: the slot is a `DefaultUnused` slot. -/
def is_unused_slot : PermutedParam → Bool
  | PermutedParam.DefaultUnused _ => true
  | _ => false

/-- Proof-layer predicate: the argument is a receiver. -/
def is_receiver_arg : FnArg → Bool
  | FnArg.receiver _ => true
  | _ => false

/-- Proof-layer description: the value computed by `named_permute_of` when no
panic fires — for each split index the positional prefix in declaration
order followed by each permutation of the rest tagged `Named`. -/
def required_tail_shapes (required_params : List FunctionParam) :
    List (List PermutedParam) :=
  ((List.range (required_params.length + 1)).map fun idx =>
    ((required_params.drop idx).permutations'.map fun single_perm =>
      single_perm.map fun item => PermutedParam.Named item).map
      fun named_seq =>
        ((required_params.take idx).map fun p => PermutedParam.Positional p) ++
          named_seq).flatten

/-- Proof-layer description: the value computed by `permute_default` when no
panic fires — for each bit mask the used-slot permutations with the unused
slots appended, then the empty sequences filtered out. -/
def default_tail_shapes (defaults : List FunctionParam) :
    List (List PermutedParam) :=
  ((((List.range (2 ^ defaults.length)).map fun num =>
      defaults.enum.map fun (pos, item) =>
        if (num >>> pos) &&& 1 != 0 then PermutedParam.DefaultUsed item
        else PermutedParam.DefaultUnused item).map fun seq =>
      (seq.partition is_used_slot).1.permutations'.map fun item =>
        item ++ (seq.partition is_used_slot).2).flatten).filter
    fun item => item.length != 0



lemma required_lambda_eq :
    (fun p : FunctionParam => match p.default_value with
      | ParamAttr.none => true
      | _ => false) = is_required_param := by
  funext p
  cases h : p.default_value <;> simp [is_required_param, h]

lemma has_default_lambda_eq :
    (fun p : FunctionParam => match p.default_value with
      | ParamAttr.none => false
      | _ => true) = has_default_param := by
  funext p
  cases h : p.default_value <;> simp [has_default_param, h]

lemma used_slot_lambda_eq :
    (fun d : PermutedParam => match d with
      | PermutedParam.DefaultUsed _ => true
      | _ => false) = is_used_slot := by
  funext d
  cases d <;> rfl

lemma default_slot_lambda_eq :
    (fun d : PermutedParam => match d with
      | PermutedParam.DefaultUsed _ => true
      | PermutedParam.DefaultUnused _ => true
      | _ => false) = is_default_slot := by
  funext d
  cases d <;> rfl

lemma map_fallible_ok {α β : Type} (f : α → Except RustError β) (g : α → β)
    (l : List α) (h : ∀ a ∈ l, f a = Except.ok (g a)) :
    map_fallible f l = Except.ok (l.map g) := by
  induction l with
  | nil => rfl
  | cons a rest ih =>
    have ha := h a (List.mem_cons_self a rest)
    have hr := ih fun x hx => h x (List.mem_cons_of_mem a hx)
    simp only [map_fallible, ha, hr, List.map_cons]
    rfl

lemma split_defaults_ok (l : List PermutedParam) (h : l.all is_default_slot = true) :
    split_defaults l = Except.ok (l.partition is_used_slot) := by
  unfold split_defaults
  rw [default_slot_lambda_eq, used_slot_lambda_eq, if_pos h]

lemma base_seq_all_default_slots (defaults : List FunctionParam) (num : Nat) :
    (defaults.enum.map fun (pos, item) =>
      if (num >>> pos) &&& 1 != 0 then PermutedParam.DefaultUsed item
      else PermutedParam.DefaultUnused item).all is_default_slot = true := by
  rw [List.all_eq_true]
  intro x hx
  rw [List.mem_map] at hx
  obtain ⟨⟨pos, item⟩, _, rfl⟩ := hx
  dsimp only
  split <;> rfl

lemma all_has_default_of_forall (defaults : List FunctionParam)
    (h : ∀ p ∈ defaults, p.default_value ≠ ParamAttr.none) :
    defaults.all has_default_param = true := by
  rw [List.all_eq_true]
  intro p hp
  have := h p hp
  unfold has_default_param
  cases hdv : p.default_value with
  | none => exact absurd hdv this
  | default => rfl
  | value e => rfl

/-- Normal form of `permute_default` on a list of genuinely defaulted
parameters: the guard passes and no panic occurs, leaving the pure
mask-permute-filter pipeline. -/
lemma permute_default_ok (defaults : List FunctionParam)
    (h : ∀ p ∈ defaults, p.default_value ≠ ParamAttr.none) :
    permute_default defaults = Except.ok (default_tail_shapes defaults) := by
  unfold permute_default default_tail_shapes
  rw [has_default_lambda_eq, all_has_default_of_forall defaults h]
  have hmf := map_fallible_ok
    (fun seq => do
      let pr ← split_defaults seq
      Except.ok (pr.1.permutations'.map fun item => item ++ pr.2))
    (fun seq => (seq.partition is_used_slot).1.permutations'.map fun item =>
      item ++ (seq.partition is_used_slot).2)
    ((List.range (2 ^ defaults.length)).map fun num =>
      defaults.enum.map fun (pos, item) =>
        if (num >>> pos) &&& 1 != 0 then PermutedParam.DefaultUsed item
        else PermutedParam.DefaultUnused item)
    (by
      intro seq hseq
      rw [List.mem_map] at hseq
      obtain ⟨num, _, rfl⟩ := hseq
      simp only [split_defaults_ok _ (base_seq_all_default_slots defaults num)]
      rfl)
  simp only [Bool.not_true, Bool.false_eq_true, if_false, hmf]
  rfl

lemma all_unused_filter_used (l : List FunctionParam) :
    (l.map PermutedParam.DefaultUnused).filter is_used_slot = [] := by
  induction l with
  | nil => rfl
  | cons a rest ih => simp [is_used_slot, ih]

lemma all_unused_filter_unused (l : List FunctionParam) :
    (l.map PermutedParam.DefaultUnused).filter (not ∘ is_used_slot) =
      l.map PermutedParam.DefaultUnused := by
  induction l with
  | nil => rfl
  | cons a rest ih => simp [is_used_slot, ih, Function.comp]

lemma all_unused_partition (l : List FunctionParam) :
    (l.map PermutedParam.DefaultUnused).partition is_used_slot =
      ([], l.map PermutedParam.DefaultUnused) := by
  rw [List.partition_eq_filter_filter, all_unused_filter_used, all_unused_filter_unused]

lemma zero_mask_base_seq (defaults : List FunctionParam) :
    (defaults.enum.map fun (pos, item) =>
      if (0 >>> pos) &&& 1 != 0 then PermutedParam.DefaultUsed item
      else PermutedParam.DefaultUnused item) =
      defaults.map PermutedParam.DefaultUnused := by
  have : (fun (pi : Nat × FunctionParam) =>
      match pi with
      | (pos, item) =>
        if (0 >>> pos) &&& 1 != 0 then PermutedParam.DefaultUsed item
        else PermutedParam.DefaultUnused item) =
      fun pi : Nat × FunctionParam => PermutedParam.DefaultUnused pi.2 := by
    funext pi
    obtain ⟨pos, item⟩ := pi
    dsimp only
    rw [Nat.zero_shiftRight, if_neg]
    simp
  rw [this]
  have : (fun pi : Nat × FunctionParam => PermutedParam.DefaultUnused pi.2) =
      PermutedParam.DefaultUnused ∘ Prod.snd := rfl
  rw [this, ← List.map_map, List.enum_map_snd]

/-- Claim C5 (amended): the all-`DefaultUnused` shape arising from the
empty used subset is retained, not discarded — it is an element of
`permute_default`'s output for every nonempty default tail; only sequences
of length zero (which arise only when the default tail itself is empty) are
filtered out, so the empty sequence never occurs in the output. -/
theorem C5_all_unused_shape_retained (defaults : List FunctionParam)
    (h : ∀ p ∈ defaults, p.default_value ≠ ParamAttr.none)
    (hne : defaults ≠ []) :
    ∃ l, permute_default defaults = Except.ok l ∧
      defaults.map PermutedParam.DefaultUnused ∈ l ∧
      [] ∉ l := by
  refine ⟨_, permute_default_ok defaults h, ?_, ?_⟩
  all_goals unfold default_tail_shapes
  · rw [List.mem_filter]
    constructor
    · rw [List.mem_flatten]
      refine ⟨[defaults.map PermutedParam.DefaultUnused], ?_, List.mem_singleton.mpr rfl⟩
      rw [List.map_map, List.mem_map]
      refine ⟨0, List.mem_range.mpr (Nat.pos_pow_of_pos defaults.length (by omega)), ?_⟩
      simp only [Function.comp]
      rw [zero_mask_base_seq, all_unused_partition]
      simp [List.permutations']
    · simp only [List.length_map, bne_iff_ne, ne_eq]
      intro hc
      exact hne (List.length_eq_zero.mp hc)
  · intro hc
    rw [List.mem_filter] at hc
    simp at hc
  -- end C5

/-- Witness for C5: the single defaulted parameter `#[default(1)] f: u8` —
its all-`DefaultUnused` shape `[DefaultUnused f]` is in the output and the
empty shape is not. -/
theorem C5_all_unused_shape_retained_witness :
    ∃ l, permute_default [⟨"f", "u8", ParamAttr.value "1"⟩] = Except.ok l ∧
      [⟨"f", "u8", ParamAttr.value "1"⟩].map PermutedParam.DefaultUnused ∈ l ∧
      [] ∉ l :=
  C5_all_unused_shape_retained [⟨"f", "u8", ParamAttr.value "1"⟩]
    (by decide) (by decide)

/-- Counterexample to C5 as stated: for the defaulted parameter
`#[default(1)] b: u8` the engine's output is
`[[DefaultUnused b], [DefaultUsed b]]`, which contains the sequence
consisting only of `DefaultUnused` slots — it is not discarded. -/
theorem C5_claim_cex :
    permute_default [⟨"b", "u8", ParamAttr.value "1"⟩] = Except.ok
      [[PermutedParam.DefaultUnused ⟨"b", "u8", ParamAttr.value "1"⟩],
        [PermutedParam.DefaultUsed ⟨"b", "u8", ParamAttr.value "1"⟩]] ∧
    [PermutedParam.DefaultUnused ⟨"b", "u8", ParamAttr.value "1"⟩] ∈
      [[PermutedParam.DefaultUnused ⟨"b", "u8", ParamAttr.value "1"⟩],
        [PermutedParam.DefaultUsed ⟨"b", "u8", ParamAttr.value "1"⟩]] := by
  exact ⟨by decide, by decide⟩

/-- Claim C2 (amended): the default-tail stage produces 0 shapes for an
empty default tail, 2 shapes for one defaulted parameter (the engine keeps
the all-unused base case, so not 1), and 5 shapes for two defaulted
parameters, exactly one of which is all-`DefaultUnused`. -/
theorem C2_default_tail_counts (p q : FunctionParam)
    (hp : p.default_value ≠ ParamAttr.none)
    (hq : q.default_value ≠ ParamAttr.none) :
    permute_default [] = Except.ok [] ∧
    (∃ l, permute_default [p] = Except.ok l ∧ l.length = 2) ∧
    (∃ l, permute_default [p, q] = Except.ok l ∧ l.length = 5 ∧
      l.countP (fun shape => shape.all is_unused_slot) = 1) := by
  refine ⟨rfl, ?_, ?_⟩
  · refine ⟨_, permute_default_ok [p] ?_, ?_⟩
    · intro x hx
      simp only [List.mem_cons, List.not_mem_nil, or_false] at hx
      subst hx
      exact hp
    · unfold default_tail_shapes
      have hr : List.range (2 ^ ([p] : List FunctionParam).length) = [0, 1] := by rfl
      have he : ([p] : List FunctionParam).enum = [(0, p)] := by rfl
      rw [hr, he]
      simp [List.partition_eq_filter_filter, is_used_slot,
        List.permutations', List.permutations'Aux]
  · refine ⟨_, permute_default_ok [p, q] ?_, ?_, ?_⟩
    · intro x hx
      simp only [List.mem_cons, List.not_mem_nil, or_false] at hx
      rcases hx with h | h
      · subst h; exact hp
      · subst h; exact hq
    all_goals {
      unfold default_tail_shapes
      have hr : List.range (2 ^ ([p, q] : List FunctionParam).length) = [0, 1, 2, 3] := by rfl
      have he : ([p, q] : List FunctionParam).enum = [(0, p), (1, q)] := by rfl
      rw [hr, he]
      simp [List.partition_eq_filter_filter, is_used_slot, is_unused_slot,
        List.permutations', List.permutations'Aux]
    }

/-- Witness for C2: the repository test input `#[default] e: i32`,
`#[default(1)] f: u8`. -/
theorem C2_default_tail_counts_witness :
    permute_default [] = Except.ok [] ∧
    (∃ l, permute_default [⟨"e", "i32", ParamAttr.default⟩] = Except.ok l ∧
      l.length = 2) ∧
    (∃ l, permute_default [⟨"e", "i32", ParamAttr.default⟩,
        ⟨"f", "u8", ParamAttr.value "1"⟩] = Except.ok l ∧ l.length = 5 ∧
      l.countP (fun shape => shape.all is_unused_slot) = 1) :=
  C2_default_tail_counts ⟨"e", "i32", ParamAttr.default⟩
    ⟨"f", "u8", ParamAttr.value "1"⟩ (by decide) (by decide)

/-- Counterexample to C2 as stated: a default tail with m = 1 produces two
shapes, `[DefaultUnused a]` and `[DefaultUsed a]`, not one. -/
theorem C2_m1_cex :
    permute_default [⟨"a", "i32", ParamAttr.default⟩] = Except.ok
      [[PermutedParam.DefaultUnused ⟨"a", "i32", ParamAttr.default⟩],
        [PermutedParam.DefaultUsed ⟨"a", "i32", ParamAttr.default⟩]] := by
  decide

lemma except_bind_ok {α β : Type} (a : α) (f : α → Except RustError β) :
    (Except.ok a >>= f) = f a := rfl

lemma permute_default_nil : permute_default [] = Except.ok [] := rfl

lemma all_required_of_forall (named : List FunctionParam)
    (h : ∀ p ∈ named, p.default_value = ParamAttr.none) :
    named.all is_required_param = true := by
  rw [List.all_eq_true]
  intro p hp
  unfold is_required_param
  rw [h p hp]

/-- Normal form of `permute_named` on a list of required parameters: the
guard passes and every permutation is returned tagged `Named`. -/
lemma permute_named_ok (named : List FunctionParam)
    (h : ∀ p ∈ named, p.default_value = ParamAttr.none) :
    permute_named named = Except.ok (named.permutations'.map fun single_perm =>
      single_perm.map fun item => PermutedParam.Named item) := by
  unfold permute_named
  rw [required_lambda_eq, all_required_of_forall named h]
  rfl

/-- Normal form of `named_permute_of` on a list of required parameters. -/
lemma named_permute_of_ok (required_params : List FunctionParam)
    (h : ∀ p ∈ required_params, p.default_value = ParamAttr.none) :
    named_permute_of required_params =
      Except.ok (required_tail_shapes required_params) := by
  unfold named_permute_of required_tail_shapes
  have hmf := map_fallible_ok
    (fun idx => do
      let positional := (required_params.take idx).map fun p =>
        PermutedParam.Positional p
      let permute_slice ← permute_named (required_params.drop idx)
      Except.ok (permute_slice.map fun named_seq => positional ++ named_seq))
    (fun idx =>
      ((required_params.drop idx).permutations'.map fun single_perm =>
        single_perm.map fun item => PermutedParam.Named item).map
        fun named_seq =>
          ((required_params.take idx).map fun p => PermutedParam.Positional p) ++
            named_seq)
    (List.range (required_params.length + 1))
    (by
      intro idx _
      simp only [permute_named_ok (required_params.drop idx)
        (fun p hp => h p (List.mem_of_mem_drop hp))]
      rfl)
  simp only [hmf]
  rfl

lemma list_range_map_sum (n : Nat) (f : Nat → Nat) :
    ((List.range n).map f).sum = ∑ j ∈ Finset.range n, f j := by
  induction n with
  | zero => rfl
  | succ k ih =>
    rw [List.range_succ, List.map_append, List.sum_append, Finset.sum_range_succ, ih]
    simp

/-- Count of the required-tail shapes: summing `(k - idx)!` over the split
indices gives the factorial sum of the specification. -/
lemma required_tail_shapes_length (required_params : List FunctionParam) :
    (required_tail_shapes required_params).length =
      ∑ j ∈ Finset.range (required_params.length + 1), Nat.factorial j := by
  unfold required_tail_shapes
  rw [List.length_flatten, List.map_map]
  have hcongr : List.map
      ((fun part : List (List PermutedParam) => part.length) ∘ fun idx =>
        ((required_params.drop idx).permutations'.map fun single_perm =>
          single_perm.map fun item => PermutedParam.Named item).map
          fun named_seq =>
            ((required_params.take idx).map fun p => PermutedParam.Positional p) ++
              named_seq)
      (List.range (required_params.length + 1)) =
      List.map (fun idx => Nat.factorial (required_params.length - idx))
      (List.range (required_params.length + 1)) := by
    apply List.map_congr_left
    intro idx _
    simp only [Function.comp, List.length_map]
    rw [← (List.permutations_perm_permutations' (required_params.drop idx)).length_eq,
      List.length_permutations, List.length_drop]
  rw [hcongr, list_range_map_sum]
  have := Finset.sum_range_reflect (fun j => Nat.factorial j)
    (required_params.length + 1)
  simp only [Nat.add_sub_cancel] at this
  exact this

/-- Membership in the required-tail shapes: exactly the shapes made of a
positional prefix of the declaration order followed by some permutation of
the remaining parameters tagged `Named`. -/
lemma required_tail_shapes_mem (required_params : List FunctionParam)
    (shape : List PermutedParam) :
    shape ∈ required_tail_shapes required_params ↔
      ∃ idx, idx ≤ required_params.length ∧ ∃ named_part : List FunctionParam,
        named_part.Perm (required_params.drop idx) ∧
        shape = ((required_params.take idx).map fun p =>
          PermutedParam.Positional p) ++
          named_part.map (fun item => PermutedParam.Named item) := by
  unfold required_tail_shapes
  rw [List.mem_flatten]
  constructor
  · rintro ⟨part, hpart, hshape⟩
    rw [List.mem_map] at hpart
    obtain ⟨idx, hidx, rfl⟩ := hpart
    rw [List.mem_range] at hidx
    rw [List.mem_map] at hshape
    obtain ⟨named_seq, hns, rfl⟩ := hshape
    rw [List.mem_map] at hns
    obtain ⟨perm, hperm, rfl⟩ := hns
    exact ⟨idx, by omega, perm, List.mem_permutations'.mp hperm, rfl⟩
  · rintro ⟨idx, hidx, named_part, hperm, rfl⟩
    refine ⟨((required_params.drop idx).permutations'.map fun single_perm =>
      single_perm.map fun item => PermutedParam.Named item).map
      fun named_seq =>
        ((required_params.take idx).map fun p => PermutedParam.Positional p) ++
          named_seq, ?_, ?_⟩
    · rw [List.mem_map]
      exact ⟨idx, List.mem_range.mpr (by omega), rfl⟩
    · rw [List.mem_map]
      refine ⟨named_part.map (fun item => PermutedParam.Named item), ?_, rfl⟩
      rw [List.mem_map]
      exact ⟨named_part, List.mem_permutations'.mpr hperm, rfl⟩

lemma is_required_param_iff (p : FunctionParam) :
    is_required_param p = true ↔ p.default_value = ParamAttr.none := by
  unfold is_required_param
  cases h : p.default_value <;> simp [h]

lemma has_default_param_iff (p : FunctionParam) :
    has_default_param p = true ↔ p.default_value ≠ ParamAttr.none := by
  unfold has_default_param
  cases h : p.default_value <;> simp [h]

lemma required_params_of_eq_takeWhile (s : FunctionParams) :
    required_params_of s = s.params.takeWhile is_required_param := by
  unfold required_params_of
  rw [required_lambda_eq]

lemma drop_length_takeWhile {α : Type} (p : α → Bool) (l : List α) :
    l.drop (l.takeWhile p).length = l.dropWhile p := by
  induction l with
  | nil => rfl
  | cons a rest ih =>
    rw [List.takeWhile_cons, List.dropWhile_cons]
    by_cases h : p a
    · rw [if_pos h, if_pos h, List.length_cons, List.drop_succ_cons, ih]
    · rw [if_neg h, if_neg h, List.length_nil, List.drop_zero]

lemma default_params_of_eq_dropWhile (s : FunctionParams) :
    default_params_of s = s.params.dropWhile is_required_param := by
  unfold default_params_of
  rw [required_params_of_eq_takeWhile, drop_length_takeWhile]

lemma mem_required_none (s : FunctionParams) :
    ∀ p ∈ required_params_of s, p.default_value = ParamAttr.none := by
  intro p hp
  rw [required_params_of_eq_takeWhile] at hp
  exact (is_required_param_iff p).mp (List.mem_takeWhile_imp hp)

lemma spec_valid_defaults (s : FunctionParams) (h : spec_defaults_at_end s = true) :
    ∀ p ∈ default_params_of s, p.default_value ≠ ParamAttr.none := by
  intro p hp
  rw [default_params_of_eq_dropWhile] at hp
  unfold spec_defaults_at_end at h
  rw [required_lambda_eq, has_default_lambda_eq, List.all_eq_true] at h
  exact (has_default_param_iff p).mp (h p hp)

/-- Normal form of `permute_params` on a valid parameter list: both stages
succeed and the result is the four-way combination of the two pure shape
sets. -/
lemma permute_params_ok (s : FunctionParams) (h : spec_defaults_at_end s = true) :
    permute_params s = Except.ok
      (match (required_tail_shapes (required_params_of s)).length,
          (default_tail_shapes (default_params_of s)).length with
        | 0, 0 => []
        | 0, _ => default_tail_shapes (default_params_of s)
        | _, 0 => required_tail_shapes (required_params_of s)
        | _, _ => ((required_tail_shapes (required_params_of s)).map fun np =>
            (default_tail_shapes (default_params_of s)).map fun dp =>
              np ++ dp).flatten) := by
  unfold permute_params
  simp only [named_permute_of_ok _ (mem_required_none s),
    permute_default_ok _ (spec_valid_defaults s h), except_bind_ok]

/-- Claim C1: at the failing input `(a: i32, #[default] b: u8)` the ordering
invariant holds (all `None`-defaulted parameters precede the defaulted one),
so the claim — and the doc comment of `is_valid_sequence` itself — require
`true`, yet `is_valid_sequence` returns `false`: its scan loop returns
`false` at the first defaulted parameter instead of switching phase, and the
phase-two check after the loop is unreachable. -/
theorem C1_is_valid_sequence_rejects_valid_list :
    is_valid_sequence ⟨FnReceiver.none,
      [⟨"a", "i32", ParamAttr.none⟩, ⟨"b", "u8", ParamAttr.default⟩]⟩ = false ∧
    spec_defaults_at_end ⟨FnReceiver.none,
      [⟨"a", "i32", ParamAttr.none⟩, ⟨"b", "u8", ParamAttr.default⟩]⟩ = true :=
  ⟨rfl, rfl⟩

lemma spec_defaults_at_end_of_all_none (s : FunctionParams)
    (h : ∀ p ∈ s.params, p.default_value = ParamAttr.none) :
    spec_defaults_at_end s = true := by
  unfold spec_defaults_at_end
  rw [required_lambda_eq, has_default_lambda_eq]
  have : s.params.dropWhile is_required_param = [] :=
    List.dropWhile_eq_nil_iff.mpr fun x hx => (is_required_param_iff x).mpr (h x hx)
  rw [this]
  rfl

lemma default_tail_shapes_nil : default_tail_shapes ([] : List FunctionParam) = [] := rfl

/-- Claim C3: on a parameter list with k required parameters and no
defaults, `permute_params` succeeds; the shape list has exactly
`Σ_{j=0..k} j!` entries; every shape is a positional prefix of the
declaration order followed by some permutation of the remaining parameters
tagged `Named`; and every such combination occurs. -/
theorem C3_required_tail_shapes (s : FunctionParams)
    (h : ∀ p ∈ s.params, p.default_value = ParamAttr.none) :
    ∃ l, permute_params s = Except.ok l ∧
      l.length = ∑ j ∈ Finset.range (s.params.length + 1), Nat.factorial j ∧
      (∀ shape ∈ l, ∃ idx, idx ≤ s.params.length ∧
        ∃ named_part : List FunctionParam,
        named_part.Perm (s.params.drop idx) ∧
        shape = ((s.params.take idx).map fun p => PermutedParam.Positional p) ++
          named_part.map (fun item => PermutedParam.Named item)) ∧
      (∀ idx, idx ≤ s.params.length → ∀ named_part : List FunctionParam,
        named_part.Perm (s.params.drop idx) →
        ((s.params.take idx).map fun p => PermutedParam.Positional p) ++
          named_part.map (fun item => PermutedParam.Named item) ∈ l) := by
  have hreq : required_params_of s = s.params := by
    rw [required_params_of_eq_takeWhile]
    exact List.takeWhile_eq_self_iff.mpr
      fun x hx => (is_required_param_iff x).mpr (h x hx)
  have hdef : default_params_of s = [] := by
    unfold default_params_of
    rw [hreq, List.drop_length]
  have hpp := permute_params_ok s (spec_defaults_at_end_of_all_none s h)
  rw [hreq, hdef, default_tail_shapes_nil] at hpp
  have hpos : 0 < (required_tail_shapes s.params).length := by
    rw [required_tail_shapes_length]
    exact Finset.sum_pos (fun i _ => Nat.factorial_pos i)
      (Finset.nonempty_range_iff.mpr (by omega))
  obtain ⟨k, hk⟩ := Nat.exists_eq_succ_of_ne_zero (Nat.pos_iff_ne_zero.mp hpos)
  rw [hk] at hpp
  refine ⟨required_tail_shapes s.params, ?_, required_tail_shapes_length s.params,
    ?_, ?_⟩
  · rw [hpp]
    rfl
  · intro shape hshape
    exact (required_tail_shapes_mem s.params shape).mp hshape
  · intro idx hidx named_part hperm
    exact (required_tail_shapes_mem s.params _).mpr ⟨idx, hidx, named_part, hperm, rfl⟩

/-- Witness for C3: the repository test input `(a: i32, b: u8)` restricted
to two parameters. -/
theorem C3_required_tail_shapes_witness :
    ∃ l, permute_params ⟨FnReceiver.none,
        [⟨"a", "i32", ParamAttr.none⟩, ⟨"b", "u8", ParamAttr.none⟩]⟩ = Except.ok l ∧
      l.length = ∑ j ∈ Finset.range
        (([⟨"a", "i32", ParamAttr.none⟩, ⟨"b", "u8", ParamAttr.none⟩] :
          List FunctionParam).length + 1), Nat.factorial j ∧
      (∀ shape ∈ l, ∃ idx, idx ≤ ([⟨"a", "i32", ParamAttr.none⟩,
          ⟨"b", "u8", ParamAttr.none⟩] : List FunctionParam).length ∧
        ∃ named_part : List FunctionParam,
        named_part.Perm (([⟨"a", "i32", ParamAttr.none⟩,
          ⟨"b", "u8", ParamAttr.none⟩] : List FunctionParam).drop idx) ∧
        shape = ((([⟨"a", "i32", ParamAttr.none⟩,
          ⟨"b", "u8", ParamAttr.none⟩] : List FunctionParam).take idx).map
            fun p => PermutedParam.Positional p) ++
          named_part.map (fun item => PermutedParam.Named item)) ∧
      (∀ idx, idx ≤ ([⟨"a", "i32", ParamAttr.none⟩,
          ⟨"b", "u8", ParamAttr.none⟩] : List FunctionParam).length →
        ∀ named_part : List FunctionParam,
        named_part.Perm (([⟨"a", "i32", ParamAttr.none⟩,
          ⟨"b", "u8", ParamAttr.none⟩] : List FunctionParam).drop idx) →
        ((([⟨"a", "i32", ParamAttr.none⟩,
          ⟨"b", "u8", ParamAttr.none⟩] : List FunctionParam).take idx).map
            fun p => PermutedParam.Positional p) ++
          named_part.map (fun item => PermutedParam.Named item) ∈ l) :=
  C3_required_tail_shapes ⟨FnReceiver.none,
    [⟨"a", "i32", ParamAttr.none⟩, ⟨"b", "u8", ParamAttr.none⟩]⟩ (by decide)

lemma sum_const_length (c : Nat) (np : List (List PermutedParam)) :
    (np.map fun _ => c).sum = np.length * c := by
  induction np with
  | nil => simp
  | cons a t ih =>
    rw [List.map_cons, List.sum_cons, ih, List.length_cons, Nat.succ_mul,
      Nat.add_comm]

lemma product_length (np dp : List (List PermutedParam)) :
    ((np.map fun r => dp.map fun d => r ++ d).flatten).length =
      np.length * dp.length := by
  rw [List.length_flatten, List.map_map]
  have hc : List.map (List.length ∘ fun r => dp.map fun d => r ++ d) np =
      List.map (fun _ => dp.length) np :=
    List.map_congr_left fun r _ => by simp [Function.comp]
  rw [hc, sum_const_length]

lemma product_mem (np dp : List (List PermutedParam)) :
    ∀ shape ∈ (np.map fun r => dp.map fun d => r ++ d).flatten,
      ∃ r ∈ np, ∃ d ∈ dp, shape = r ++ d := by
  intro shape hs
  rw [List.mem_flatten] at hs
  obtain ⟨inner, hinner, hs⟩ := hs
  rw [List.mem_map] at hinner
  obtain ⟨r, hr, rfl⟩ := hinner
  rw [List.mem_map] at hs
  obtain ⟨d, hd, rfl⟩ := hs
  exact ⟨r, hr, d, hd, rfl⟩

/-- Claim C4: on a valid parameter list `permute_params` combines the
required-tail shape set `S_R` and the default-tail shape set `S_D` by the
four-way rule of the source: both empty gives the empty output, exactly one
empty gives the other set, and both non-empty gives the full product — one
shape per pair, the required-tail shape followed by the default-tail shape,
with `|S_R| · |S_D|` shapes in total. -/
theorem C4_product_law (s : FunctionParams) (h : spec_defaults_at_end s = true) :
    ∃ np dp l, named_permute_of (required_params_of s) = Except.ok np ∧
      permute_default (default_params_of s) = Except.ok dp ∧
      permute_params s = Except.ok l ∧
      (np ≠ [] → dp ≠ [] → l.length = np.length * dp.length ∧
        ∀ shape ∈ l, ∃ r ∈ np, ∃ d ∈ dp, shape = r ++ d) ∧
      (np = [] → dp ≠ [] → l = dp) ∧
      (np ≠ [] → dp = [] → l = np) ∧
      (np = [] → dp = [] → l = []) := by
  refine ⟨required_tail_shapes (required_params_of s),
    default_tail_shapes (default_params_of s), _,
    named_permute_of_ok _ (mem_required_none s),
    permute_default_ok _ (spec_valid_defaults s h),
    permute_params_ok s h, ?_, ?_, ?_, ?_⟩
  · intro hnpne hdpne
    cases hnp : required_tail_shapes (required_params_of s) with
    | nil => exact absurd hnp hnpne
    | cons a npr =>
      cases hdp : default_tail_shapes (default_params_of s) with
      | nil => exact absurd hdp hdpne
      | cons b dpr =>
        exact ⟨product_length (a :: npr) (b :: dpr), product_mem (a :: npr) (b :: dpr)⟩
  · intro hnpnil hdpne
    cases hdp : default_tail_shapes (default_params_of s) with
    | nil => exact absurd hdp hdpne
    | cons b dpr =>
      rw [hnpnil]
      rfl
  · intro hnpne hdpnil
    cases hnp : required_tail_shapes (required_params_of s) with
    | nil => exact absurd hnp hnpne
    | cons a npr =>
      rw [hdpnil]
      rfl
  · intro hnpnil hdpnil
    rw [hnpnil, hdpnil]
    rfl

/-- Witness for C4: the repository test input with four required and two
defaulted parameters, whose total shape count is the contractual
`34 × 5 = 170`. -/
theorem C4_product_law_witness :
    (∃ np dp l, named_permute_of (required_params_of (⟨FnReceiver.none, [⟨"a", "i32", ParamAttr.none⟩, ⟨"b", "u8", ParamAttr.none⟩,
      ⟨"c", "usize", ParamAttr.none⟩, ⟨"d", "i64", ParamAttr.none⟩,
      ⟨"e", "i32", ParamAttr.default⟩, ⟨"f", "u8", ParamAttr.value "1"⟩]⟩ : FunctionParams)) = Except.ok np ∧
      permute_default (default_params_of (⟨FnReceiver.none, [⟨"a", "i32", ParamAttr.none⟩, ⟨"b", "u8", ParamAttr.none⟩,
      ⟨"c", "usize", ParamAttr.none⟩, ⟨"d", "i64", ParamAttr.none⟩,
      ⟨"e", "i32", ParamAttr.default⟩, ⟨"f", "u8", ParamAttr.value "1"⟩]⟩ : FunctionParams)) = Except.ok dp ∧
      permute_params (⟨FnReceiver.none, [⟨"a", "i32", ParamAttr.none⟩, ⟨"b", "u8", ParamAttr.none⟩,
      ⟨"c", "usize", ParamAttr.none⟩, ⟨"d", "i64", ParamAttr.none⟩,
      ⟨"e", "i32", ParamAttr.default⟩, ⟨"f", "u8", ParamAttr.value "1"⟩]⟩ : FunctionParams) = Except.ok l ∧
      (np ≠ [] → dp ≠ [] → l.length = np.length * dp.length ∧
        ∀ shape ∈ l, ∃ r ∈ np, ∃ d ∈ dp, shape = r ++ d) ∧
      (np = [] → dp ≠ [] → l = dp) ∧
      (np ≠ [] → dp = [] → l = np) ∧
      (np = [] → dp = [] → l = [])) ∧
    Except.map List.length (permute_params (⟨FnReceiver.none, [⟨"a", "i32", ParamAttr.none⟩, ⟨"b", "u8", ParamAttr.none⟩,
      ⟨"c", "usize", ParamAttr.none⟩, ⟨"d", "i64", ParamAttr.none⟩,
      ⟨"e", "i32", ParamAttr.default⟩, ⟨"f", "u8", ParamAttr.value "1"⟩]⟩ : FunctionParams)) = Except.ok 170 :=
  ⟨C4_product_law ⟨FnReceiver.none, [⟨"a", "i32", ParamAttr.none⟩, ⟨"b", "u8", ParamAttr.none⟩,
      ⟨"c", "usize", ParamAttr.none⟩, ⟨"d", "i64", ParamAttr.none⟩,
      ⟨"e", "i32", ParamAttr.default⟩, ⟨"f", "u8", ParamAttr.value "1"⟩]⟩ (by decide), by decide⟩

lemma takeWhile_eq_take_length {α : Type} (p : α → Bool) (l : List α) :
    l.takeWhile p = l.take (l.takeWhile p).length := by
  induction l with
  | nil => rfl
  | cons a rest ih =>
    rw [List.takeWhile_cons]
    by_cases h : p a
    · rw [if_pos h, List.length_cons, List.take_succ_cons]
      exact congrArg (List.cons a) ih
    · rw [if_neg h]
      rfl

lemma take_of_takeWhile {α : Type} (p : α → Bool) (l : List α) (i : Nat)
    (h : i ≤ (l.takeWhile p).length) :
    (l.takeWhile p).take i = l.take i := by
  conv_lhs => rw [takeWhile_eq_take_length p l]
  rw [List.take_take]
  congr 1
  exact inf_eq_left.mpr h

lemma not_positional_of_default (slot : PermutedParam)
    (h : is_default_slot slot = true) : is_positional_slot slot = false := by
  cases slot <;> first | rfl | exact absurd h (by simp [is_default_slot])

/-- Every slot of every default-tail shape carries one of the two default
tags. -/
lemma default_tail_shapes_slots (defaults : List FunctionParam) :
    ∀ shape ∈ default_tail_shapes defaults, ∀ slot ∈ shape,
      is_default_slot slot = true := by
  intro shape hshape slot hslot
  unfold default_tail_shapes at hshape
  rw [List.mem_filter] at hshape
  obtain ⟨hmem, _⟩ := hshape
  rw [List.mem_flatten] at hmem
  obtain ⟨part, hpart, hsh⟩ := hmem
  rw [List.map_map, List.mem_map] at hpart
  obtain ⟨num, _, rfl⟩ := hpart
  simp only [Function.comp] at hsh
  rw [List.mem_map] at hsh
  obtain ⟨permitem, hpermitem, rfl⟩ := hsh
  have hbase := base_seq_all_default_slots defaults num
  rw [List.all_eq_true] at hbase
  rw [List.mem_append] at hslot
  rw [List.partition_eq_filter_filter] at hpermitem hslot
  rcases hslot with h1 | h2
  · have : slot ∈ (defaults.enum.map fun (pos, item) =>
        if (num >>> pos) &&& 1 != 0 then PermutedParam.DefaultUsed item
        else PermutedParam.DefaultUnused item).filter is_used_slot :=
      ((List.mem_permutations'.mp hpermitem).mem_iff).mp h1
    exact hbase slot (List.mem_filter.mp this).1
  · exact hbase slot (List.mem_filter.mp h2).1

/-- Claim C7: in every shape returned by `permute_params` on a valid list,
the `Positional` slots form a prefix — they are exactly the first `idx`
declared parameters in declaration order — and no later slot is
`Positional`. -/
theorem C7_positional_monotonic (s : FunctionParams)
    (h : spec_defaults_at_end s = true) (l : List (List PermutedParam))
    (hl : permute_params s = Except.ok l) :
    ∀ shape ∈ l, ∃ idx, ∃ rest : List PermutedParam,
      shape = ((s.params.take idx).map fun p => PermutedParam.Positional p) ++
        rest ∧
      ∀ slot ∈ rest, is_positional_slot slot = false := by
  have hpp := permute_params_ok s h
  rw [hl] at hpp
  have hleq := Except.ok.inj hpp
  intro shape hshape
  rw [hleq] at hshape
  cases hnp : required_tail_shapes (required_params_of s) with
  | nil =>
    rw [hnp] at hshape
    cases hdp : default_tail_shapes (default_params_of s) with
    | nil =>
      rw [hdp] at hshape
      have hnil : shape ∈ ([] : List (List PermutedParam)) := hshape
      exact absurd hnil (List.not_mem_nil shape)
    | cons b dpr =>
      rw [hdp] at hshape
      have hmem : shape ∈ b :: dpr := hshape
      refine ⟨0, shape, by rw [List.take_zero]; rfl, ?_⟩
      intro slot hslot
      refine not_positional_of_default slot
        (default_tail_shapes_slots (default_params_of s) shape ?_ slot hslot)
      rw [hdp]
      exact hmem
  | cons a npr =>
    rw [hnp] at hshape
    have htake : ∀ idx, idx ≤ (required_params_of s).length →
        (required_params_of s).take idx = s.params.take idx := by
      intro idx hidx
      rw [required_params_of_eq_takeWhile]
      rw [required_params_of_eq_takeWhile] at hidx
      exact take_of_takeWhile _ _ idx hidx
    cases hdp : default_tail_shapes (default_params_of s) with
    | nil =>
      rw [hdp] at hshape
      have hmem : shape ∈ a :: npr := hshape
      have hrts : shape ∈ required_tail_shapes (required_params_of s) := by
        rw [hnp]
        exact hmem
      obtain ⟨idx, hidx, named_part, hperm, rfl⟩ :=
        (required_tail_shapes_mem _ _).mp hrts
      refine ⟨idx, named_part.map (fun item => PermutedParam.Named item), ?_, ?_⟩
      · rw [htake idx hidx]
      · intro slot hslot
        rw [List.mem_map] at hslot
        obtain ⟨item, _, rfl⟩ := hslot
        rfl
    | cons b dpr =>
      rw [hdp] at hshape
      have hmem : shape ∈
          ((a :: npr).map fun np => (b :: dpr).map fun dp => np ++ dp).flatten :=
        hshape
      obtain ⟨r, hr, d, hd, rfl⟩ := product_mem _ _ _ hmem
      have hrts : r ∈ required_tail_shapes (required_params_of s) := by
        rw [hnp]
        exact hr
      obtain ⟨idx, hidx, named_part, hperm, rfl⟩ :=
        (required_tail_shapes_mem _ _).mp hrts
      have hdts : d ∈ default_tail_shapes (default_params_of s) := by
        rw [hdp]
        exact hd
      refine ⟨idx, named_part.map (fun item => PermutedParam.Named item) ++ d,
        ?_, ?_⟩
      · rw [List.append_assoc, htake idx hidx]
      · intro slot hslot
        rw [List.mem_append] at hslot
        rcases hslot with h1 | h2
        · rw [List.mem_map] at h1
          obtain ⟨item, _, rfl⟩ := h1
          rfl
        · exact not_positional_of_default slot
            (default_tail_shapes_slots (default_params_of s) d hdts slot h2)

/-- Witness for C7: the single-required-parameter input `(a: i32)` and its
all-positional shape. -/
theorem C7_positional_monotonic_witness :
    ∃ idx, ∃ rest : List PermutedParam,
      [PermutedParam.Positional ⟨"a", "i32", ParamAttr.none⟩] =
        ((([⟨"a", "i32", ParamAttr.none⟩] : List FunctionParam).take idx).map
          fun p => PermutedParam.Positional p) ++ rest ∧
      ∀ slot ∈ rest, is_positional_slot slot = false :=
  C7_positional_monotonic ⟨FnReceiver.none, [⟨"a", "i32", ParamAttr.none⟩]⟩
    (by decide)
    [[PermutedParam.Named ⟨"a", "i32", ParamAttr.none⟩],
      [PermutedParam.Positional ⟨"a", "i32", ParamAttr.none⟩]] (by decide)
    [PermutedParam.Positional ⟨"a", "i32", ParamAttr.none⟩] (by decide)

/-- Claim C6 (amended): when a required (`None`-default) parameter follows a
defaulted one, `permute_params` does not return a shape list — it aborts
with the fixed panic message of `permute_default`'s guard, which does not
name the offending parameter. -/
theorem C6_invalid_ordering_panics (s : FunctionParams) (i j : Nat)
    (hi : i < s.params.length) (hj : j < s.params.length) (hij : i < j)
    (hdi : (s.params.get ⟨i, hi⟩).default_value ≠ ParamAttr.none)
    (hdj : (s.params.get ⟨j, hj⟩).default_value = ParamAttr.none) :
    permute_params s = Except.error
      (RustError.fromPanic "All items in slice must have default values") := by
  have hble : (s.params.takeWhile is_required_param).length ≤ i := by
    by_contra hlt
    push_neg at hlt
    have hmem : s.params.get ⟨i, hi⟩ ∈ s.params.takeWhile is_required_param := by
      rw [takeWhile_eq_take_length is_required_param s.params]
      refine List.mem_iff_getElem.mpr ⟨i, ?_, ?_⟩
      · rw [List.length_take]
        exact lt_inf_iff.mpr ⟨hlt, hi⟩
      · rw [List.getElem_take]
        rfl
    exact hdi ((is_required_param_iff _).mp (List.mem_takeWhile_imp hmem))
  have hdefs : s.params.get ⟨j, hj⟩ ∈ default_params_of s := by
    unfold default_params_of
    rw [required_params_of_eq_takeWhile]
    refine List.mem_iff_getElem.mpr ⟨j - (s.params.takeWhile is_required_param).length,
      ?_, ?_⟩
    · rw [List.length_drop]
      omega
    · rw [List.getElem_drop]
      congr 1
      omega
  have hfail : (default_params_of s).all has_default_param = false := by
    cases hall : (default_params_of s).all has_default_param with
    | false => rfl
    | true =>
      rw [List.all_eq_true] at hall
      have := (has_default_param_iff _).mp (hall _ hdefs)
      exact absurd hdj this
  have herr : permute_default (default_params_of s) = Except.error
      (RustError.fromPanic "All items in slice must have default values") := by
    unfold permute_default
    rw [has_default_lambda_eq, hfail]
    rfl
  unfold permute_params
  simp only [named_permute_of_ok _ (mem_required_none s), except_bind_ok, herr]
  rfl

/-- Witness for C6: the spec's own scenario `(a: i32, #[default] b: u8,
c: usize)` — required `c` follows defaulted `b`. -/
theorem C6_invalid_ordering_panics_witness :
    permute_params ⟨FnReceiver.none,
      [⟨"a", "i32", ParamAttr.none⟩, ⟨"b", "u8", ParamAttr.default⟩,
        ⟨"c", "usize", ParamAttr.none⟩]⟩ = Except.error
      (RustError.fromPanic "All items in slice must have default values") :=
  C6_invalid_ordering_panics ⟨FnReceiver.none,
    [⟨"a", "i32", ParamAttr.none⟩, ⟨"b", "u8", ParamAttr.default⟩,
      ⟨"c", "usize", ParamAttr.none⟩]⟩ 1 2 (by decide) (by decide) (by decide)
    (by decide) (by decide)

/-- Counterexample to C6 as stated: on an invalid ordering the failure is a
panic with a fixed message; the diagnostic does not point at — does not even
mention — the first offending parameter (here named `zeta`). -/
theorem C6_diagnostic_cex :
    permute_params ⟨FnReceiver.none,
      [⟨"a", "i32", ParamAttr.none⟩, ⟨"b", "u8", ParamAttr.default⟩,
        ⟨"zeta", "usize", ParamAttr.none⟩]⟩ = Except.error
      (RustError.fromPanic "All items in slice must have default values") ∧
    ¬ ("zeta".toList <:+: "All items in slice must have default values".toList) := by
  exact ⟨by decide, by decide⟩

lemma from_punctuated_loop_two_receivers (args : List FnArg) :
    ∀ (s : FunctionParams) (has_receiver : Bool),
    (if has_receiver then 1 else 2) ≤ args.countP is_receiver_arg →
    (∀ t, FnArg.typed t ∈ args → ∃ fp, from_pat_type t = Except.ok fp) →
    from_punctuated_loop s has_receiver args = Except.error
      (RustError.fromPanic "Function cannot accept multiple receivers") := by
  induction args with
  | nil =>
    intro s has_receiver hcount _
    rw [List.countP_nil] at hcount
    cases has_receiver with
    | true => rw [if_pos rfl] at hcount; omega
    | false => rw [if_neg (by decide)] at hcount; omega
  | cons a rest ih =>
    intro s has_receiver hcount hok
    rw [List.countP_cons] at hcount
    cases a with
    | receiver recv =>
      rw [show is_receiver_arg (FnArg.receiver recv) = true from rfl,
        if_pos rfl] at hcount
      cases has_receiver with
      | true => rfl
      | false =>
        rw [if_neg (by decide)] at hcount
        refine ih _ true ?_ (fun t ht => hok t (List.mem_cons_of_mem _ ht))
        rw [if_pos rfl]
        omega
    | typed t =>
      rw [show is_receiver_arg (FnArg.typed t) = false from rfl,
        if_neg (show ¬(false = true) from by decide), Nat.add_zero] at hcount
      obtain ⟨fp, hfp⟩ := hok t (List.mem_cons_self _ _)
      show (do
        let param ← from_pat_type t
        from_punctuated_loop { s with params := s.params ++ [param] }
          has_receiver rest) = _
      rw [hfp, except_bind_ok]
      exact ih _ has_receiver hcount (fun u hu => hok u (List.mem_cons_of_mem _ hu))

/-- Claim C9 (amended): an argument sequence containing more than one
receiver is rejected, but by an aborting panic with the fixed message
`Function cannot accept multiple receivers` — raised at the second
receiver, before it is decoded — rather than by a returned `syn::Error`
naming the offending token.  (The hypothesis that the typed arguments
parse excludes the unrelated attribute-parse errors that would abort
earlier.) -/
theorem C9_multiple_receivers_panic (args : List FnArg)
    (hcount : 2 ≤ args.countP is_receiver_arg)
    (hok : ∀ t, FnArg.typed t ∈ args → ∃ fp, from_pat_type t = Except.ok fp) :
    from_punctuated args = Except.error
      (RustError.fromPanic "Function cannot accept multiple receivers") :=
  from_punctuated_loop_two_receivers args _ false hcount hok

/-- Witness for C9: two bare receivers. -/
theorem C9_multiple_receivers_panic_witness :
    from_punctuated [FnArg.receiver ⟨false, false, Option.none, false, "Self"⟩,
      FnArg.receiver ⟨false, false, Option.none, false, "Self"⟩] = Except.error
      (RustError.fromPanic "Function cannot accept multiple receivers") :=
  C9_multiple_receivers_panic
    [FnArg.receiver ⟨false, false, Option.none, false, "Self"⟩,
      FnArg.receiver ⟨false, false, Option.none, false, "Self"⟩]
    (by decide)
    (by
      intro t ht
      simp at ht)

/-- Counterexample to C9 as stated: the rejection is a panic — not an error
value returned to the caller — and its fixed message names no token of the
input (in particular neither `self` nor the receiver type `Self`). -/
theorem C9_claim_cex :
    from_punctuated [FnArg.receiver ⟨true, true, Option.none, false, "Self"⟩,
      FnArg.receiver ⟨true, true, Option.none, false, "Self"⟩] = Except.error
      (RustError.fromPanic "Function cannot accept multiple receivers") ∧
    ¬ ("self".toList <:+: "Function cannot accept multiple receivers".toList) ∧
    ¬ ("Self".toList <:+: "Function cannot accept multiple receivers".toList) := by
  exact ⟨by decide, by decide, by decide⟩

/-- Claim C8: rendering a `DefaultUnused` slot omits it from the match
pattern for every default descriptor, while the call-expression fragment
inlines the default — the `Default` trait call for `ZeroValue`, the stored
expression for `Expr(e)` — and aborts generation (the `unimplemented!`
panic) when the descriptor is `None`. -/
theorem C8_default_unused_rendering (pat ty e : String) :
    to_macro_pattern (PermutedParam.DefaultUnused ⟨pat, ty, ParamAttr.none⟩) = Option.none ∧
    to_macro_pattern (PermutedParam.DefaultUnused ⟨pat, ty, ParamAttr.default⟩) = Option.none ∧
    to_macro_pattern (PermutedParam.DefaultUnused ⟨pat, ty, ParamAttr.value e⟩) = Option.none ∧
    to_func_call_pattern (PermutedParam.DefaultUnused ⟨pat, ty, ParamAttr.default⟩) =
      Except.ok "std::default::Default::default()" ∧
    to_func_call_pattern (PermutedParam.DefaultUnused ⟨pat, ty, ParamAttr.value e⟩) =
      Except.ok e ∧
    to_func_call_pattern (PermutedParam.DefaultUnused ⟨pat, ty, ParamAttr.none⟩) =
      Except.error (RustError.fromPanic "not implemented: invalid inner value") :=
  ⟨rfl, rfl, rfl, rfl, rfl, rfl⟩

/-- Claim C10: slot equality ignores the tag and everything except the
binding pattern text — for any two slots built from any of the four
constructors over any parameters, `eq_impl` holds exactly when the `pat`
texts agree, regardless of types and default descriptors. -/
theorem C10_eq_ignores_tags_types_defaults (ca cb : FunctionParam → PermutedParam)
    (ha : ca = PermutedParam.Positional ∨ ca = PermutedParam.Named ∨
      ca = PermutedParam.DefaultUsed ∨ ca = PermutedParam.DefaultUnused)
    (hb : cb = PermutedParam.Positional ∨ cb = PermutedParam.Named ∨
      cb = PermutedParam.DefaultUsed ∨ cb = PermutedParam.DefaultUnused)
    (p q : FunctionParam) :
    PermutedParam.eq_impl (ca p) (cb q) = (p.pat == q.pat) := by
  rcases ha with h | h | h | h <;> rcases hb with h2 | h2 | h2 | h2 <;>
    subst h <;> subst h2 <;> rfl

/-- Witness for C10: a `Positional` slot and a `DefaultUnused` slot with the
same pattern text but different types and defaults compare equal. -/
theorem C10_eq_ignores_tags_witness :
    PermutedParam.eq_impl
      (PermutedParam.Positional ⟨"a", "i32", ParamAttr.none⟩)
      (PermutedParam.DefaultUnused ⟨"a", "u8", ParamAttr.default⟩) =
      (FunctionParam.pat ⟨"a", "i32", ParamAttr.none⟩ ==
        FunctionParam.pat ⟨"a", "u8", ParamAttr.default⟩) :=
  C10_eq_ignores_tags_types_defaults PermutedParam.Positional PermutedParam.DefaultUnused
    (Or.inl rfl) (Or.inr (Or.inr (Or.inr rfl))) _ _

end Defamed
